import Mathlib

/-
Verification of the DROP datum binary codec (DatumBinaryFormat in
src/services/PixelArt/PixelArtPresets.ts).

Modelling conventions:
- A byte buffer (JS Uint8Array / DataView) is a List Nat whose entries are
  byte values; every write site reduces the written value mod 256 or mod
  2 to the 32, mirroring the ToUint8 / ToUint32 coercions of setUint8 and
  setUint32.
- float32 and float64 fields are modelled by their bit patterns (Nat).
  The codec never performs arithmetic on these values: setFloat32 and
  getFloat32 only move the 4-byte little-endian pattern between a number
  slot and the buffer, which is exactly what the model does.  Band values
  of a dataset are therefore float32 bit patterns (naturals below 2 to
  the 32).
- Strings (the name field) are modelled as lists of byte values.  The
  TextEncoder and TextDecoder steps are the identity on such byte lists
  for single-byte characters, which is the only case the spec exercises.
- DataView.getUint8 on an out-of-range offset throws a RangeError; the
  model returns Except.error .rangeError from any read whose byte range
  is not fully inside the buffer, which is observably the same behaviour.
- Fields of the in-memory Datum object that the codec neither reads nor
  validates (description, createdAt, modifiedAt, frame metadata) are not
  modelled; sampleRate and bandCount are kept because binaryToDatum
  populates them.
-/

namespace Drop

/-- Bit patterns of one spectral frame: the list of 20 band values (as
float32 bit patterns) plus the ordinal timestamp the decoder assigns. -/
structure SpectralFrame where
  bands : List Nat
  timestamp : Nat
deriving DecidableEq, Repr

/-- In-memory dataset shape consumed and produced by the codec. -/
structure Datum where
  name : List Nat
  frameCount : Nat
  bandCount : Nat
  sampleRate : Nat
  frames : List SpectralFrame
deriving DecidableEq, Repr

/-- Constant DATUM_MAGIC from the source: the ASCII bytes of DATM. -/
def DATUM_MAGIC : List Nat := [0x44, 0x41, 0x54, 0x4D]

/-- Constant DATUM_VERSION from the source. -/
def DATUM_VERSION : Nat := 1

/-- Constant DATUM_HEADER_SIZE from the source. -/
def DATUM_HEADER_SIZE : Nat := 203

/-- Header record mirroring interface DatumHeader.  endFrame is an Int
because createHeader computes frameCount - 1, which is -1 in JS when
frameCount is 0.  Float fields hold bit patterns. -/
structure DatumHeader where
  magic : List Nat
  version : Nat
  headerSize : Nat
  name : List Nat
  frames : Nat
  startFrame : Nat
  endFrame : Int
  baseHz : Nat
  phaseMultipliers : List Nat
  offsets : List Nat
  startPoint : Nat
  endPoint : Nat
  warpAmount : Nat
  warpType : Nat
  selectedLUT : Nat
  reserved : List Nat
deriving DecidableEq, Repr

/-- Errors thrown by the decoder.  The first six correspond to the six
Error sites of validateHeader; rangeError models the RangeError a JS
DataView read throws on an out-of-bounds offset. -/
inductive DatumError where
  | magicMismatch
  | unsupportedVersion (v : Nat)
  | invalidHeaderSize (s : Nat)
  | invalidFrameCount
  | invalidFrameRange
  | invalidFileSize (expected got : Nat)
  | rangeError
deriving DecidableEq, Repr

/-- Little-endian byte serialisation of the low w bytes of n, as written
by setUint32 / setFloat32 / setFloat64 (value coerced mod 256 per byte,
higher bits dropped). -/
def leBytes : Nat → Nat → List Nat
  | 0, _ => []
  | w + 1, n => n % 256 :: leBytes w (n / 256)

/-- Little-endian value of a byte list, as read by getUint32 and friends. -/
def leVal (bs : List Nat) : Nat := bs.foldr (fun b acc => b + 256 * acc) 0

/-- Bit pattern of the float64 literal 440.0 written as baseHz. -/
def baseHzBits : Nat := 0x407B800000000000

/-- Bit pattern of the float64 literal 1.0. -/
def f64OneBits : Nat := 0x3FF0000000000000

/-- Byte list of the substitute name DROP Export used when datum.name is
falsy (empty). -/
def dropExportName : List Nat :=
  [0x44, 0x52, 0x4F, 0x50, 0x20, 0x45, 0x78, 0x70, 0x6F, 0x72, 0x74]

/-- createHeader from the source: fills the header from the datum, with
the fixed defaults the codebase always uses. -/
def createHeader (d : Datum) : DatumHeader :=
  { magic := DATUM_MAGIC
    version := DATUM_VERSION
    headerSize := DATUM_HEADER_SIZE
    name := if d.name = [] then dropExportName else d.name
    frames := d.frameCount
    startFrame := 0
    endFrame := (d.frameCount : Int) - 1
    baseHz := baseHzBits
    phaseMultipliers := List.replicate 4 f64OneBits
    offsets := List.replicate 4 0
    startPoint := 0
    endPoint := f64OneBits
    warpAmount := 0
    warpType := 0
    selectedLUT := 0
    reserved := List.replicate 65 0 }

/-- Name field serialisation in writeHeader: the name is truncated to 19
characters, then 20 bytes are written, padding with 0. -/
def nameFieldBytes (name : List Nat) : List Nat :=
  let nb := name.take 19
  (List.range 20).map fun i => nb.getD i 0 % 256

/-- writeHeader from the source: emits the 203 header bytes in field
order.  The fixed-count loops of the source (4 magic bytes, 4 phase
multipliers, 4 offsets, 65 reserved bytes) are modelled as maps over
List.range so that exactly that many slots are written. -/
def writeHeaderBytes (h : DatumHeader) : List Nat :=
  ((List.range 4).map fun i => h.magic.getD i 0 % 256)
  ++ leBytes 4 h.version
  ++ leBytes 4 h.headerSize
  ++ nameFieldBytes h.name
  ++ leBytes 4 h.frames
  ++ leBytes 4 h.startFrame
  ++ leBytes 4 ((h.endFrame % (2 ^ 32)).toNat)
  ++ leBytes 8 h.baseHz
  ++ ((List.range 4).map fun i => h.phaseMultipliers.getD i 0).flatMap (leBytes 8)
  ++ ((List.range 4).map fun i => h.offsets.getD i 0).flatMap (leBytes 8)
  ++ leBytes 8 h.startPoint
  ++ leBytes 8 h.endPoint
  ++ leBytes 4 h.warpAmount
  ++ [h.warpType % 256]
  ++ [h.selectedLUT % 256]
  ++ ((List.range 65).map fun i => h.reserved.getD i 0 % 256)

/-- Band coercion of encodeSpectralData: slice(0, 20) then push 0.0
until 20 entries. -/
def padBands (bands : List Nat) : List Nat :=
  let b := bands.take 20
  b ++ List.replicate (20 - b.length) 0

/-- Payload bytes of one frame: 20 float32 values, little-endian. -/
def encodeFrameBytes (fr : SpectralFrame) : List Nat :=
  (padBands fr.bands).flatMap (leBytes 4)

/-- encodeSpectralData from the source: iterates the actual frames array
and writes 20 float32 band slots per frame. -/
def encodeSpectralData (frames : List SpectralFrame) : List Nat :=
  frames.flatMap encodeFrameBytes

/-- datumToBinary from the source: header bytes followed by the spectral
payload. -/
def datumToBinary (d : Datum) : List Nat :=
  writeHeaderBytes (createHeader d) ++ encodeSpectralData d.frames

/-- Reading n bytes starting at off.  The source reads them one by one
with getUint8, which throws a RangeError as soon as an offset falls
outside the view, so the read succeeds exactly when the whole range is
inside the buffer. -/
def getBytes (buf : List Nat) (off n : Nat) : Except DatumError (List Nat) :=
  if off + n ≤ buf.length then .ok ((buf.drop off).take n) else .error .rangeError

/-- getUint32 little-endian. -/
def getUint32 (buf : List Nat) (off : Nat) : Except DatumError Nat :=
  (getBytes buf off 4).map leVal

/-- getFloat64 little-endian, returning the bit pattern. -/
def getF64Bits (buf : List Nat) (off : Nat) : Except DatumError Nat :=
  (getBytes buf off 8).map leVal

/-- getFloat32 little-endian, returning the bit pattern. -/
def getF32Bits (buf : List Nat) (off : Nat) : Except DatumError Nat :=
  (getBytes buf off 4).map leVal

/-- getUint8 as a one-byte read. -/
def getByte (buf : List Nat) (off : Nat) : Except DatumError Nat :=
  (getBytes buf off 1).map leVal

/-- Trailing NUL stripping applied to the decoded name, modelling the
replace of the trailing run of NUL characters with the empty string. -/
def stripTrailingNuls (l : List Nat) : List Nat :=
  (l.reverse.dropWhile (fun b => b == 0)).reverse

/-- readHeader from the source: reads every header field at its fixed
offset, in source order, and strips trailing NULs from the name. -/
def readHeader (buf : List Nat) : Except DatumError DatumHeader := do
  let magic ← getBytes buf 0 4
  let version ← getUint32 buf 4
  let headerSize ← getUint32 buf 8
  let nameBytes ← getBytes buf 12 20
  let frames ← getUint32 buf 32
  let startFrame ← getUint32 buf 36
  let endFrame ← getUint32 buf 40
  let baseHz ← getF64Bits buf 44
  let pm0 ← getF64Bits buf 52
  let pm1 ← getF64Bits buf 60
  let pm2 ← getF64Bits buf 68
  let pm3 ← getF64Bits buf 76
  let of0 ← getF64Bits buf 84
  let of1 ← getF64Bits buf 92
  let of2 ← getF64Bits buf 100
  let of3 ← getF64Bits buf 108
  let startPoint ← getF64Bits buf 116
  let endPoint ← getF64Bits buf 124
  let warpAmount ← getF32Bits buf 132
  let warpType ← getByte buf 136
  let selectedLUT ← getByte buf 137
  let reserved ← getBytes buf 138 65
  pure { magic := magic
         version := version
         headerSize := headerSize
         name := stripTrailingNuls nameBytes
         frames := frames
         startFrame := startFrame
         endFrame := (endFrame : Int)
         baseHz := baseHz
         phaseMultipliers := [pm0, pm1, pm2, pm3]
         offsets := [of0, of1, of2, of3]
         startPoint := startPoint
         endPoint := endPoint
         warpAmount := warpAmount
         warpType := warpType
         selectedLUT := selectedLUT
         reserved := reserved }

/-- validateHeader from the source: the six checks in source order, each
raising its own error.  On a header read from a buffer the frames field
is a uint32 value, so the frames at most 0 test of the source is the
test for 0 here. -/
def validateHeader (h : DatumHeader) (fileSize : Nat) : Except DatumError Unit :=
  if h.magic ≠ DATUM_MAGIC then .error .magicMismatch
  else if h.version ≠ DATUM_VERSION then .error (.unsupportedVersion h.version)
  else if h.headerSize ≠ DATUM_HEADER_SIZE then .error (.invalidHeaderSize h.headerSize)
  else if h.frames ≤ 0 then .error .invalidFrameCount
  else if h.endFrame < (h.startFrame : Int) then .error .invalidFrameRange
  else if fileSize ≠ DATUM_HEADER_SIZE + h.frames * 20 * 4 then
    .error (.invalidFileSize (DATUM_HEADER_SIZE + h.frames * 20 * 4) fileSize)
  else .ok ()

/-- Reading n float32 band values starting at off, as the inner loop of
decodeSpectralData does. -/
def readBands (data : List Nat) (off : Nat) : Nat → Except DatumError (List Nat)
  | 0 => .ok []
  | n + 1 => do
      let b ← getF32Bits data off
      let rest ← readBands data (off + 4) n
      pure (b :: rest)

/-- Frame loop of decodeSpectralData: frame f reads its 20 bands at
offset f * 80 of the payload slice and is stamped with its ordinal. -/
def decodeFramesFrom (data : List Nat) : Nat → Nat → Except DatumError (List SpectralFrame)
  | _, 0 => .ok []
  | f, r + 1 => do
      let bands ← readBands data (f * 80) 20
      let rest ← decodeFramesFrom data (f + 1) r
      pure ({ bands := bands, timestamp := f } :: rest)

/-- decodeSpectralData from the source. -/
def decodeSpectralData (data : List Nat) (frameCount : Nat) :
    Except DatumError (List SpectralFrame) :=
  decodeFramesFrom data 0 frameCount

/-- binaryToDatum from the source: read header, validate it against the
total length, slice off the payload, decode frames, assemble the datum
with its fixed sampleRate and bandCount. -/
def binaryToDatum (data : List Nat) : Except DatumError Datum := do
  let header ← readHeader data
  validateHeader header data.length
  let spectral := data.drop DATUM_HEADER_SIZE
  let frames ← decodeSpectralData spectral header.frames
  pure { name := header.name
         frameCount := header.frames
         bandCount := 20
         sampleRate := 44100
         frames := frames }

/-- validateFile from the source: length pre-check, then full header
read and validation with all errors converted to false. -/
def validateFile (data : List Nat) : Bool :=
  if data.length < DATUM_HEADER_SIZE then false
  else
    match (do
      let h ← readHeader data
      validateHeader h data.length : Except DatumError Unit) with
    | .ok _ => true
    | .error _ => false

/-- Summary record returned by getFileInfo. -/
structure FileInfo where
  name : List Nat
  frames : Nat
  size : Nat
deriving DecidableEq, Repr

/-- getFileInfo from the source: length pre-check, then a bare header
read with no validation, all errors converted to none. -/
def getFileInfo (data : List Nat) : Option FileInfo :=
  if data.length < DATUM_HEADER_SIZE then none
  else
    match readHeader data with
    | .ok h => some { name := h.name, frames := h.frames, size := data.length }
    | .error _ => none

/-- Pure view of the header fields of a buffer, by offset.  readHeader
computes exactly this whenever the buffer holds at least the 203 header
bytes. -/
def headerOf (buf : List Nat) : DatumHeader :=
  { magic := (buf.drop 0).take 4
    version := leVal ((buf.drop 4).take 4)
    headerSize := leVal ((buf.drop 8).take 4)
    name := stripTrailingNuls ((buf.drop 12).take 20)
    frames := leVal ((buf.drop 32).take 4)
    startFrame := leVal ((buf.drop 36).take 4)
    endFrame := (leVal ((buf.drop 40).take 4) : Int)
    baseHz := leVal ((buf.drop 44).take 8)
    phaseMultipliers := [leVal ((buf.drop 52).take 8), leVal ((buf.drop 60).take 8),
                         leVal ((buf.drop 68).take 8), leVal ((buf.drop 76).take 8)]
    offsets := [leVal ((buf.drop 84).take 8), leVal ((buf.drop 92).take 8),
                leVal ((buf.drop 100).take 8), leVal ((buf.drop 108).take 8)]
    startPoint := leVal ((buf.drop 116).take 8)
    endPoint := leVal ((buf.drop 124).take 8)
    warpAmount := leVal ((buf.drop 132).take 4)
    warpType := leVal ((buf.drop 136).take 1)
    selectedLUT := leVal ((buf.drop 137).take 1)
    reserved := (buf.drop 138).take 65 }

/-- Decoded form of one encoded frame starting at ordinal f. -/
def expectedFrames (f : Nat) (fs : List SpectralFrame) : List SpectralFrame :=
  (List.enumFrom f fs).map fun p =>
    { bands := (padBands p.2.bands).map (fun b => b % 2 ^ 32), timestamp := p.1 }

/-- Example dataset with 2 frames of 20 bands used as a concrete witness. -/
def sampleDatum : Datum :=
  { name := [84, 101, 115, 116]
    frameCount := 2
    bandCount := 20
    sampleRate := 44100
    frames := [{ bands := List.replicate 20 5, timestamp := 0 },
               { bands := List.replicate 20 9, timestamp := 1 }] }

/-- Dataset whose frames array is empty while frameCount declares 2. -/
def mismatchedDatum : Datum :=
  { name := [84]
    frameCount := 2
    bandCount := 20
    sampleRate := 44100
    frames := [] }

/-- Dataset with frameCount 0 and a matching empty frames array. -/
def zeroFrameDatum : Datum :=
  { name := []
    frameCount := 0
    bandCount := 20
    sampleRate := 44100
    frames := [] }

/-- Valid encoded buffer declaring 5 frames (603 bytes). -/
def fiveFrameBuf : List Nat :=
  datumToBinary
    { name := [84, 101, 115, 116]
      frameCount := 5
      bandCount := 20
      sampleRate := 44100
      frames := List.replicate 5 { bands := List.replicate 20 1, timestamp := 0 } }

/-- The same buffer with its final payload byte removed (602 bytes). -/
def fiveFrameBufShort : List Nat := fiveFrameBuf.dropLast

/-- Frame with only 18 band values. -/
def frame18 : SpectralFrame := { bands := List.replicate 18 7, timestamp := 0 }

/-- Frame with 25 band values. -/
def frame25 : SpectralFrame := { bands := List.replicate 25 9, timestamp := 0 }

/-- Dataset with a 30-character name. -/
def longNameDatum : Datum :=
  { name := (List.range 30).map fun i => 65 + i
    frameCount := 1
    bandCount := 20
    sampleRate := 44100
    frames := [{ bands := List.replicate 20 3, timestamp := 0 }] }

/-- Dataset with an empty name. -/
def emptyNameDatum : Datum :=
  { name := []
    frameCount := 1
    bandCount := 20
    sampleRate := 44100
    frames := [{ bands := List.replicate 20 3, timestamp := 0 }] }

theorem ok_bind {α β : Type} (v : α) (f : α → Except DatumError β) :
    (Except.ok v >>= f : Except DatumError β) = f v := rfl

theorem error_bind {α β : Type} (e : DatumError) (f : α → Except DatumError β) :
    (Except.error e >>= f : Except DatumError β) = .error e := rfl

theorem map_ok {α β : Type} (g : α → β) (v : α) :
    Except.map g (Except.ok v : Except DatumError α) = .ok (g v) := rfl

theorem map_error {α β : Type} (g : α → β) (e : DatumError) :
    Except.map g (Except.error e : Except DatumError α) = .error e := rfl

theorem pure_def {α : Type} (v : α) :
    (pure v : Except DatumError α) = .ok v := rfl

theorem leBytes_length (w n : Nat) : (leBytes w n).length = w := by
  induction w generalizing n with
  | zero => rfl
  | succ w ih => simp [leBytes, ih]

theorem leVal_leBytes_four (n : Nat) : leVal (leBytes 4 n) = n % 2 ^ 32 := by
  simp only [leBytes, leVal, List.foldr]
  omega

theorem nameFieldBytes_length (nm : List Nat) : (nameFieldBytes nm).length = 20 := by
  simp [nameFieldBytes]

theorem padBands_length (b : List Nat) : (padBands b).length = 20 := by
  simp only [padBands, List.length_append, List.length_take, List.length_replicate]
  omega

theorem flatMapLeBytes_length (w : Nat) (l : List Nat) :
    (l.flatMap (leBytes w)).length = w * l.length := by
  induction l with
  | nil => simp
  | cons x xs ih => simp [List.flatMap_cons, ih, leBytes_length]; ring

theorem encodeFrameBytes_length (fr : SpectralFrame) :
    (encodeFrameBytes fr).length = 80 := by
  unfold encodeFrameBytes
  rw [flatMapLeBytes_length, padBands_length]

theorem encodeSpectralData_length (fs : List SpectralFrame) :
    (encodeSpectralData fs).length = 80 * fs.length := by
  induction fs with
  | nil => simp [encodeSpectralData]
  | cons fr tl ih =>
      simp [encodeSpectralData, List.flatMap_cons, encodeFrameBytes_length] at *
      simp [ih]; ring

theorem writeHeaderBytes_length (h : DatumHeader) :
    (writeHeaderBytes h).length = 203 := by
  unfold writeHeaderBytes
  rw [List.length_append, List.length_append, List.length_append, List.length_append,
    List.length_append, List.length_append, List.length_append, List.length_append,
    List.length_append, List.length_append, List.length_append, List.length_append,
    List.length_append, List.length_append, List.length_append,
    flatMapLeBytes_length, flatMapLeBytes_length]
  simp [leBytes_length, nameFieldBytes_length]

theorem datumToBinary_length (d : Datum) :
    (datumToBinary d).length = 203 + 80 * d.frames.length := by
  simp [datumToBinary, writeHeaderBytes_length, encodeSpectralData_length]

theorem getBytes_ok (buf : List Nat) (off n : Nat) (h : off + n ≤ buf.length) :
    getBytes buf off n = .ok ((buf.drop off).take n) := by
  unfold getBytes; rw [if_pos h]

theorem getBytes_err (buf : List Nat) (off n : Nat) (h : ¬ off + n ≤ buf.length) :
    getBytes buf off n = .error .rangeError := by
  unfold getBytes; rw [if_neg h]

/-- Extraction of a slice at a known offset from a chunked buffer. -/
theorem dropTake_at (p mid s : List Nat) (off n : Nat)
    (hp : p.length = off) (hm : mid.length = n) :
    ((p ++ (mid ++ s)).drop off).take n = mid := by
  rw [List.drop_left' hp, List.take_left' hm]

/-- On a buffer holding a full header, readHeader returns the field view. -/
theorem readHeader_ok (buf : List Nat) (h : 203 ≤ buf.length) :
    readHeader buf = .ok (headerOf buf) := by
  have e0 := getBytes_ok buf 0 4 (by omega)
  have e1 := getBytes_ok buf 4 4 (by omega)
  have e2 := getBytes_ok buf 8 4 (by omega)
  have e3 := getBytes_ok buf 12 20 (by omega)
  have e4 := getBytes_ok buf 32 4 (by omega)
  have e5 := getBytes_ok buf 36 4 (by omega)
  have e6 := getBytes_ok buf 40 4 (by omega)
  have e7 := getBytes_ok buf 44 8 (by omega)
  have e8 := getBytes_ok buf 52 8 (by omega)
  have e9 := getBytes_ok buf 60 8 (by omega)
  have e10 := getBytes_ok buf 68 8 (by omega)
  have e11 := getBytes_ok buf 76 8 (by omega)
  have e12 := getBytes_ok buf 84 8 (by omega)
  have e13 := getBytes_ok buf 92 8 (by omega)
  have e14 := getBytes_ok buf 100 8 (by omega)
  have e15 := getBytes_ok buf 108 8 (by omega)
  have e16 := getBytes_ok buf 116 8 (by omega)
  have e17 := getBytes_ok buf 124 8 (by omega)
  have e18 := getBytes_ok buf 132 4 (by omega)
  have e19 := getBytes_ok buf 136 1 (by omega)
  have e20 := getBytes_ok buf 137 1 (by omega)
  have e21 := getBytes_ok buf 138 65 (by omega)
  simp only [readHeader, getUint32, getF64Bits, getF32Bits, getByte,
    e0, e1, e2, e3, e4, e5, e6, e7, e8, e9, e10, e11, e12, e13, e14, e15,
    e16, e17, e18, e19, e20, e21, map_ok, ok_bind, pure_def, headerOf]

/-- On a buffer shorter than the 203-byte header, readHeader fails with
the out-of-bounds read error before any validation can happen. -/
theorem readHeader_short (buf : List Nat) (h : buf.length < 203) :
    readHeader buf = .error .rangeError := by
  by_cases h1 : 0 + 4 ≤ buf.length
  swap
  · simp only [readHeader, getUint32, getF64Bits, getF32Bits, getByte, 
      getBytes_err buf 0 4 h1, map_ok, map_error, ok_bind, error_bind]
  have e1 := getBytes_ok buf 0 4 h1
  by_cases h2 : 4 + 4 ≤ buf.length
  swap
  · simp only [readHeader, getUint32, getF64Bits, getF32Bits, getByte, e1, 
      getBytes_err buf 4 4 h2, map_ok, map_error, ok_bind, error_bind]
  have e2 := getBytes_ok buf 4 4 h2
  by_cases h3 : 8 + 4 ≤ buf.length
  swap
  · simp only [readHeader, getUint32, getF64Bits, getF32Bits, getByte, e1, e2, 
      getBytes_err buf 8 4 h3, map_ok, map_error, ok_bind, error_bind]
  have e3 := getBytes_ok buf 8 4 h3
  by_cases h4 : 12 + 20 ≤ buf.length
  swap
  · simp only [readHeader, getUint32, getF64Bits, getF32Bits, getByte, e1, e2, e3, 
      getBytes_err buf 12 20 h4, map_ok, map_error, ok_bind, error_bind]
  have e4 := getBytes_ok buf 12 20 h4
  by_cases h5 : 32 + 4 ≤ buf.length
  swap
  · simp only [readHeader, getUint32, getF64Bits, getF32Bits, getByte, e1, e2, e3, e4, 
      getBytes_err buf 32 4 h5, map_ok, map_error, ok_bind, error_bind]
  have e5 := getBytes_ok buf 32 4 h5
  by_cases h6 : 36 + 4 ≤ buf.length
  swap
  · simp only [readHeader, getUint32, getF64Bits, getF32Bits, getByte, e1, e2, e3, e4, e5, 
      getBytes_err buf 36 4 h6, map_ok, map_error, ok_bind, error_bind]
  have e6 := getBytes_ok buf 36 4 h6
  by_cases h7 : 40 + 4 ≤ buf.length
  swap
  · simp only [readHeader, getUint32, getF64Bits, getF32Bits, getByte, e1, e2, e3, e4, e5, e6, 
      getBytes_err buf 40 4 h7, map_ok, map_error, ok_bind, error_bind]
  have e7 := getBytes_ok buf 40 4 h7
  by_cases h8 : 44 + 8 ≤ buf.length
  swap
  · simp only [readHeader, getUint32, getF64Bits, getF32Bits, getByte, e1, e2, e3, e4, e5, e6, e7, 
      getBytes_err buf 44 8 h8, map_ok, map_error, ok_bind, error_bind]
  have e8 := getBytes_ok buf 44 8 h8
  by_cases h9 : 52 + 8 ≤ buf.length
  swap
  · simp only [readHeader, getUint32, getF64Bits, getF32Bits, getByte, e1, e2, e3, e4, e5, e6, e7, e8, 
      getBytes_err buf 52 8 h9, map_ok, map_error, ok_bind, error_bind]
  have e9 := getBytes_ok buf 52 8 h9
  by_cases h10 : 60 + 8 ≤ buf.length
  swap
  · simp only [readHeader, getUint32, getF64Bits, getF32Bits, getByte, e1, e2, e3, e4, e5, e6, e7, e8, e9, 
      getBytes_err buf 60 8 h10, map_ok, map_error, ok_bind, error_bind]
  have e10 := getBytes_ok buf 60 8 h10
  by_cases h11 : 68 + 8 ≤ buf.length
  swap
  · simp only [readHeader, getUint32, getF64Bits, getF32Bits, getByte, e1, e2, e3, e4, e5, e6, e7, e8, e9, e10, 
      getBytes_err buf 68 8 h11, map_ok, map_error, ok_bind, error_bind]
  have e11 := getBytes_ok buf 68 8 h11
  by_cases h12 : 76 + 8 ≤ buf.length
  swap
  · simp only [readHeader, getUint32, getF64Bits, getF32Bits, getByte, e1, e2, e3, e4, e5, e6, e7, e8, e9, e10, e11, 
      getBytes_err buf 76 8 h12, map_ok, map_error, ok_bind, error_bind]
  have e12 := getBytes_ok buf 76 8 h12
  by_cases h13 : 84 + 8 ≤ buf.length
  swap
  · simp only [readHeader, getUint32, getF64Bits, getF32Bits, getByte, e1, e2, e3, e4, e5, e6, e7, e8, e9, e10, e11, e12, 
      getBytes_err buf 84 8 h13, map_ok, map_error, ok_bind, error_bind]
  have e13 := getBytes_ok buf 84 8 h13
  by_cases h14 : 92 + 8 ≤ buf.length
  swap
  · simp only [readHeader, getUint32, getF64Bits, getF32Bits, getByte, e1, e2, e3, e4, e5, e6, e7, e8, e9, e10, e11, e12, e13, 
      getBytes_err buf 92 8 h14, map_ok, map_error, ok_bind, error_bind]
  have e14 := getBytes_ok buf 92 8 h14
  by_cases h15 : 100 + 8 ≤ buf.length
  swap
  · simp only [readHeader, getUint32, getF64Bits, getF32Bits, getByte, e1, e2, e3, e4, e5, e6, e7, e8, e9, e10, e11, e12, e13, e14, 
      getBytes_err buf 100 8 h15, map_ok, map_error, ok_bind, error_bind]
  have e15 := getBytes_ok buf 100 8 h15
  by_cases h16 : 108 + 8 ≤ buf.length
  swap
  · simp only [readHeader, getUint32, getF64Bits, getF32Bits, getByte, e1, e2, e3, e4, e5, e6, e7, e8, e9, e10, e11, e12, e13, e14, e15, 
      getBytes_err buf 108 8 h16, map_ok, map_error, ok_bind, error_bind]
  have e16 := getBytes_ok buf 108 8 h16
  by_cases h17 : 116 + 8 ≤ buf.length
  swap
  · simp only [readHeader, getUint32, getF64Bits, getF32Bits, getByte, e1, e2, e3, e4, e5, e6, e7, e8, e9, e10, e11, e12, e13, e14, e15, e16, 
      getBytes_err buf 116 8 h17, map_ok, map_error, ok_bind, error_bind]
  have e17 := getBytes_ok buf 116 8 h17
  by_cases h18 : 124 + 8 ≤ buf.length
  swap
  · simp only [readHeader, getUint32, getF64Bits, getF32Bits, getByte, e1, e2, e3, e4, e5, e6, e7, e8, e9, e10, e11, e12, e13, e14, e15, e16, e17, 
      getBytes_err buf 124 8 h18, map_ok, map_error, ok_bind, error_bind]
  have e18 := getBytes_ok buf 124 8 h18
  by_cases h19 : 132 + 4 ≤ buf.length
  swap
  · simp only [readHeader, getUint32, getF64Bits, getF32Bits, getByte, e1, e2, e3, e4, e5, e6, e7, e8, e9, e10, e11, e12, e13, e14, e15, e16, e17, e18, 
      getBytes_err buf 132 4 h19, map_ok, map_error, ok_bind, error_bind]
  have e19 := getBytes_ok buf 132 4 h19
  by_cases h20 : 136 + 1 ≤ buf.length
  swap
  · simp only [readHeader, getUint32, getF64Bits, getF32Bits, getByte, e1, e2, e3, e4, e5, e6, e7, e8, e9, e10, e11, e12, e13, e14, e15, e16, e17, e18, e19, 
      getBytes_err buf 136 1 h20, map_ok, map_error, ok_bind, error_bind]
  have e20 := getBytes_ok buf 136 1 h20
  by_cases h21 : 137 + 1 ≤ buf.length
  swap
  · simp only [readHeader, getUint32, getF64Bits, getF32Bits, getByte, e1, e2, e3, e4, e5, e6, e7, e8, e9, e10, e11, e12, e13, e14, e15, e16, e17, e18, e19, e20, 
      getBytes_err buf 137 1 h21, map_ok, map_error, ok_bind, error_bind]
  have e21 := getBytes_ok buf 137 1 h21
  by_cases h22 : 138 + 65 ≤ buf.length
  swap
  · simp only [readHeader, getUint32, getF64Bits, getF32Bits, getByte, e1, e2, e3, e4, e5, e6, e7, e8, e9, e10, e11, e12, e13, e14, e15, e16, e17, e18, e19, e20, e21, 
      getBytes_err buf 138 65 h22, map_ok, map_error, ok_bind, error_bind]
  omega



/-- Peeling one chunk off an append when the offset reaches past it. -/
theorem drop_chunk {α : Type} (c rest : List α) (off : Nat) (h : c.length ≤ off) :
    (c ++ rest).drop off = rest.drop (off - c.length) := by
  rw [List.drop_append_eq_append_drop, List.drop_eq_nil_of_le h, List.nil_append]

/-- Taking exactly one chunk at the front of an append. -/
theorem take_chunk {α : Type} (c rest : List α) (n : Nat) (h : c.length = n) :
    (c ++ rest).take n = c :=
  List.take_left' h

theorem magicChunk_eq :
    ((List.range 4).map fun i => DATUM_MAGIC.getD i 0 % 256) = DATUM_MAGIC := by decide

theorem encode_field_magic (d : Datum) :
    ((datumToBinary d).drop 0).take 4 = DATUM_MAGIC := by
  simp only [datumToBinary, writeHeaderBytes, createHeader, magicChunk_eq, List.append_assoc,
    List.drop_zero]
  exact take_chunk _ _ _ (by decide)

theorem encode_field_version (d : Datum) :
    ((datumToBinary d).drop 4).take 4 = leBytes 4 DATUM_VERSION := by
  simp [datumToBinary, writeHeaderBytes, createHeader, magicChunk_eq, DATUM_MAGIC,
    List.append_assoc, drop_chunk, take_chunk, leBytes_length, nameFieldBytes_length,
    flatMapLeBytes_length, List.drop_zero]

theorem encode_field_headerSize (d : Datum) :
    ((datumToBinary d).drop 8).take 4 = leBytes 4 DATUM_HEADER_SIZE := by
  simp [datumToBinary, writeHeaderBytes, createHeader, magicChunk_eq, DATUM_MAGIC,
    List.append_assoc, drop_chunk, take_chunk, leBytes_length, nameFieldBytes_length,
    flatMapLeBytes_length, List.drop_zero]

theorem encode_field_name (d : Datum) :
    ((datumToBinary d).drop 12).take 20 =
      nameFieldBytes (if d.name = [] then dropExportName else d.name) := by
  simp [datumToBinary, writeHeaderBytes, createHeader, magicChunk_eq, DATUM_MAGIC,
    List.append_assoc, drop_chunk, take_chunk, leBytes_length, nameFieldBytes_length,
    flatMapLeBytes_length, List.drop_zero]

theorem encode_field_frames (d : Datum) :
    ((datumToBinary d).drop 32).take 4 = leBytes 4 d.frameCount := by
  simp [datumToBinary, writeHeaderBytes, createHeader, magicChunk_eq, DATUM_MAGIC,
    List.append_assoc, drop_chunk, take_chunk, leBytes_length, nameFieldBytes_length,
    flatMapLeBytes_length, List.drop_zero]

theorem encode_field_startFrame (d : Datum) :
    ((datumToBinary d).drop 36).take 4 = leBytes 4 0 := by
  simp [datumToBinary, writeHeaderBytes, createHeader, magicChunk_eq, DATUM_MAGIC,
    List.append_assoc, drop_chunk, take_chunk, leBytes_length, nameFieldBytes_length,
    flatMapLeBytes_length, List.drop_zero]

theorem encode_field_endFrame (d : Datum) :
    ((datumToBinary d).drop 40).take 4 =
      leBytes 4 ((((d.frameCount : Int) - 1) % (2 ^ 32)).toNat) := by
  simp [datumToBinary, writeHeaderBytes, createHeader, magicChunk_eq, DATUM_MAGIC,
    List.append_assoc, drop_chunk, take_chunk, leBytes_length, nameFieldBytes_length,
    flatMapLeBytes_length, List.drop_zero]

theorem encode_payload (d : Datum) :
    (datumToBinary d).drop 203 = encodeSpectralData d.frames := by
  unfold datumToBinary
  exact List.drop_left' (writeHeaderBytes_length _)


/-- Reading a run of float32 values laid out by the encoder returns their
bit patterns reduced mod 2 to the 32. -/
theorem readBands_concat (vs : List Nat) (pfx suf : List Nat) :
    readBands (pfx ++ (vs.flatMap (leBytes 4) ++ suf)) pfx.length vs.length =
      .ok (vs.map (fun b => b % 2 ^ 32)) := by
  induction vs generalizing pfx with
  | nil => simp [readBands]
  | cons v tl ih =>
      have hassoc : pfx ++ ((v :: tl).flatMap (leBytes 4) ++ suf)
          = pfx ++ (leBytes 4 v ++ (tl.flatMap (leBytes 4) ++ suf)) := by
        simp [List.flatMap_cons]
      have hread : getBytes (pfx ++ ((v :: tl).flatMap (leBytes 4) ++ suf)) pfx.length 4
          = .ok (leBytes 4 v) := by
        rw [hassoc]
        unfold getBytes
        rw [if_pos (by simp [leBytes_length]), dropTake_at pfx _ _ _ _ rfl (leBytes_length 4 v)]
      have hassoc2 : pfx ++ ((v :: tl).flatMap (leBytes 4) ++ suf)
          = (pfx ++ leBytes 4 v) ++ (tl.flatMap (leBytes 4) ++ suf) := by
        simp [List.flatMap_cons]
      have hlen2 : pfx.length + 4 = (pfx ++ leBytes 4 v).length := by
        simp [leBytes_length]
      have hrec : readBands (pfx ++ ((v :: tl).flatMap (leBytes 4) ++ suf))
          (pfx.length + 4) tl.length = .ok (tl.map (fun b => b % 2 ^ 32)) := by
        rw [hassoc2, hlen2]
        exact ih (pfx ++ leBytes 4 v)
      show readBands _ _ (tl.length + 1) = _
      simp only [readBands, getF32Bits, hread, map_ok, ok_bind, hrec, pure_def,
        leVal_leBytes_four, List.map_cons]

/-- Decoding the encoded payload of a frame list recovers the padded band
patterns frame by frame. -/
theorem decodeFramesFrom_concat (fs : List SpectralFrame) (pfx : List Nat) (f : Nat)
    (hp : pfx.length = f * 80) :
    decodeFramesFrom (pfx ++ fs.flatMap encodeFrameBytes) f fs.length =
      .ok (expectedFrames f fs) := by
  induction fs generalizing pfx f with
  | nil => simp [decodeFramesFrom, expectedFrames, List.enumFrom]
  | cons fr tl ih =>
      have hb : readBands (pfx ++ (fr :: tl).flatMap encodeFrameBytes) (f * 80) 20
          = .ok ((padBands fr.bands).map (fun b => b % 2 ^ 32)) := by
        have h20 : (readBands (pfx ++ (fr :: tl).flatMap encodeFrameBytes) (f * 80) 20 :
            Except DatumError (List Nat))
            = readBands (pfx ++ ((padBands fr.bands).flatMap (leBytes 4)
                ++ tl.flatMap encodeFrameBytes)) pfx.length (padBands fr.bands).length := by
          rw [hp, padBands_length]
          have : (fr :: tl).flatMap encodeFrameBytes
              = (padBands fr.bands).flatMap (leBytes 4) ++ tl.flatMap encodeFrameBytes := by
            simp [List.flatMap_cons, encodeFrameBytes]
          rw [this]
        rw [h20, readBands_concat]
      have hassoc : pfx ++ (fr :: tl).flatMap encodeFrameBytes
          = (pfx ++ encodeFrameBytes fr) ++ tl.flatMap encodeFrameBytes := by
        simp [List.flatMap_cons]
      have hlen2 : (pfx ++ encodeFrameBytes fr).length = (f + 1) * 80 := by
        simp [encodeFrameBytes_length, hp]
        ring
      have hrec : decodeFramesFrom (pfx ++ (fr :: tl).flatMap encodeFrameBytes)
          (f + 1) tl.length = .ok (expectedFrames (f + 1) tl) := by
        rw [hassoc]
        exact ih (pfx ++ encodeFrameBytes fr) (f + 1) hlen2
      show decodeFramesFrom _ _ (tl.length + 1) = _
      simp only [decodeFramesFrom, hb, ok_bind, hrec, pure_def, expectedFrames,
        List.enumFrom_cons, List.map_cons]

/-- Any in-bounds run of float32 reads succeeds. -/
theorem readBands_ok (data : List Nat) (n : Nat) :
    ∀ off, off + 4 * n ≤ data.length → ∃ l, readBands data off n = .ok l := by
  induction n with
  | zero => exact fun off _ => ⟨[], rfl⟩
  | succ n ih =>
      intro off h
      obtain ⟨l, hl⟩ := ih (off + 4) (by omega)
      refine ⟨leVal ((data.drop off).take 4) :: l, ?_⟩
      show readBands data off (n + 1) = _
      simp only [readBands, getF32Bits, getBytes_ok data off 4 (by omega), map_ok,
        ok_bind, hl, pure_def]

/-- Frame decoding succeeds whenever the payload slice is long enough. -/
theorem decodeFramesFrom_ok (data : List Nat) (r : Nat) :
    ∀ f, (f + r) * 80 ≤ data.length → ∃ l, decodeFramesFrom data f r = .ok l := by
  induction r with
  | zero => exact fun f _ => ⟨[], rfl⟩
  | succ r ih =>
      intro f h
      obtain ⟨bs, hbs⟩ := readBands_ok data 20 (f * 80) (by omega)
      obtain ⟨l, hl⟩ := ih (f + 1) (by omega)
      refine ⟨{ bands := bs, timestamp := f } :: l, ?_⟩
      show decodeFramesFrom data f (r + 1) = _
      simp only [decodeFramesFrom, hbs, ok_bind, hl, pure_def]


theorem map_mod_eq_self (l : List Nat) (h : ∀ b ∈ l, b < 2 ^ 32) :
    l.map (fun b => b % 2 ^ 32) = l := by
  rw [List.map_congr_left fun a ha => Nat.mod_eq_of_lt (h a ha)]
  simp

/-- On byte-valued names the written field is the truncated name padded
with NULs to 20 bytes. -/
theorem nameFieldBytes_eq (nm : List Nat) (hb : ∀ b ∈ nm, b < 256) :
    nameFieldBytes nm = nm.take 19 ++ List.replicate (20 - (nm.take 19).length) 0 := by
  have hk : (nm.take 19).length ≤ 19 := by
    simp [List.length_take]
  apply List.ext_getElem
  · simp [nameFieldBytes, List.length_take]
  intro i h1 h2
  have hi : i < 20 := by simpa [nameFieldBytes] using h1
  by_cases hik : i < (nm.take 19).length
  · have hmem : (nm.take 19)[i] ∈ nm := by
      have : (nm.take 19)[i] ∈ nm.take 19 := List.getElem_mem hik
      exact List.mem_of_mem_take this
    simp only [nameFieldBytes, List.getElem_map, List.getElem_range,
      List.getD_eq_getElem _ _ hik, List.getElem_append_left hik]
    exact Nat.mod_eq_of_lt (hb _ hmem)
  · have hge : (nm.take 19).length ≤ i := by omega
    simp only [nameFieldBytes, List.getElem_map, List.getElem_range,
      List.getD_eq_default _ _ hge]
    rw [List.getElem_append_right hge]
    simp

theorem dropWhile_replicate_zero (k : Nat) (x : List Nat) :
    List.dropWhile (fun b => b == 0) (List.replicate k 0 ++ x)
      = List.dropWhile (fun b => b == 0) x := by
  induction k with
  | zero => simp
  | succ k ih =>
      rw [List.replicate_succ, List.cons_append, List.dropWhile_cons_of_pos (by simp)]
      exact ih

theorem dropWhile_zero_eq_self (m : List Nat) (h : ∀ b ∈ m, b ≠ 0) :
    List.dropWhile (fun b => b == 0) m = m := by
  cases m with
  | nil => rfl
  | cons a t =>
      rw [List.dropWhile_cons_of_neg]
      simp [h a (List.mem_cons_self a t)]

theorem stripTrailingNuls_append_zeros (l : List Nat) (k : Nat) :
    stripTrailingNuls (l ++ List.replicate k 0) = stripTrailingNuls l := by
  unfold stripTrailingNuls
  rw [List.reverse_append, List.reverse_replicate, dropWhile_replicate_zero]

theorem stripTrailingNuls_eq_self (l : List Nat) (h : ∀ b ∈ l, b ≠ 0) :
    stripTrailingNuls l = l := by
  unfold stripTrailingNuls
  rw [dropWhile_zero_eq_self _ (fun b hb => h b (List.mem_reverse.mp hb)), List.reverse_reverse]

/-- Master round-trip computation: decoding an encoded dataset with a
positive in-range frameCount matching the frames array recovers the
header-derived fields and the padded band patterns. -/
theorem decode_encode (d : Datum) (h3 : 0 < d.frameCount) (h4 : d.frameCount < 2 ^ 32)
    (h2 : d.frames.length = d.frameCount) :
    binaryToDatum (datumToBinary d) = .ok
      { name := stripTrailingNuls (nameFieldBytes (if d.name = [] then dropExportName else d.name))
        frameCount := d.frameCount
        bandCount := 20
        sampleRate := 44100
        frames := expectedFrames 0 d.frames } := by
  have h203 : 203 ≤ (datumToBinary d).length := by
    rw [datumToBinary_length]; omega
  have hmg : (headerOf (datumToBinary d)).magic = DATUM_MAGIC := by
    simp only [headerOf]
    exact encode_field_magic d
  have hver : (headerOf (datumToBinary d)).version = 1 := by
    simp only [headerOf]
    rw [encode_field_version]; decide
  have hhs : (headerOf (datumToBinary d)).headerSize = 203 := by
    simp only [headerOf]
    rw [encode_field_headerSize]; decide
  have hfr : (headerOf (datumToBinary d)).frames = d.frameCount := by
    simp only [headerOf]
    rw [encode_field_frames, leVal_leBytes_four]; omega
  have hsf : (headerOf (datumToBinary d)).startFrame = 0 := by
    simp only [headerOf]
    rw [encode_field_startFrame]; decide
  have hef : (headerOf (datumToBinary d)).endFrame = ((d.frameCount - 1 : Nat) : Int) := by
    simp only [headerOf]
    rw [encode_field_endFrame, leVal_leBytes_four]
    omega
  have hname : (headerOf (datumToBinary d)).name
      = stripTrailingNuls (nameFieldBytes (if d.name = [] then dropExportName else d.name)) := by
    simp only [headerOf]
    rw [encode_field_name]
  have hval : validateHeader (headerOf (datumToBinary d)) (datumToBinary d).length = .ok () := by
    unfold validateHeader
    rw [if_neg (by rw [hmg]; simp),
      if_neg (by rw [hver]; decide),
      if_neg (by rw [hhs]; decide),
      if_neg (by rw [hfr]; omega),
      if_neg (by rw [hef, hsf]; omega),
      if_neg (by rw [hfr, datumToBinary_length, h2]; simp only [DATUM_HEADER_SIZE]; omega)]
  have hdec : decodeSpectralData ((datumToBinary d).drop DATUM_HEADER_SIZE)
      d.frameCount = .ok (expectedFrames 0 d.frames) := by
    simp only [DATUM_HEADER_SIZE]
    rw [encode_payload, ← h2]
    unfold decodeSpectralData
    have hmain := decodeFramesFrom_concat d.frames [] 0 rfl
    simpa [encodeSpectralData] using hmain
  simp only [binaryToDatum, readHeader_ok _ h203, ok_bind, hval, hdec, pure_def, hname, hfr]


/-- C2 counterexample: a dataset declaring frameCount 2 with an empty
frames array encodes to 203 bytes, not 203 + 2 * 80 = 363 bytes, so the
encoder does not size the output from the declared frameCount field. -/
theorem c2_output_size_counterexample :
    (datumToBinary mismatchedDatum).length ≠ 203 + mismatchedDatum.frameCount * 80 := by
  rw [datumToBinary_length]
  decide

/-- C2 (amended): datumToBinary always returns a buffer of exactly
203 + frames.length * 80 bytes: the encoder sizes the payload from the
actual frames array, not from the declared frameCount field. -/
theorem c2_output_size_amended (d : Datum) :
    (datumToBinary d).length = 203 + d.frames.length * 80 := by
  rw [datumToBinary_length]
  ring

/-- C4 counterexample: a 10-byte all-zero buffer has a non-matching
magic prefix, yet binaryToDatum does not raise the magic-mismatch error
(the header read throws a range error first). -/
theorem c4_magic_rejection_counterexample :
    (List.replicate 10 0).take 4 ≠ DATUM_MAGIC
    ∧ ¬ binaryToDatum (List.replicate 10 0) = .error .magicMismatch := by
  constructor
  · decide
  · intro hcontra
    have hre : binaryToDatum (List.replicate 10 0) = .error .rangeError := by
      simp only [binaryToDatum, readHeader_short (List.replicate 10 0) (by decide), error_bind]
    rw [hre] at hcontra
    simp at hcontra

/-- C4 (amended): on buffers of at least 203 bytes a wrong 4-byte magic
prefix always raises the magic-mismatch error; on shorter buffers the
header read fails with the out-of-bounds range error instead, whatever
the first bytes are. -/
theorem c4_magic_rejection_amended (buf : List Nat) :
    (203 ≤ buf.length → buf.take 4 ≠ DATUM_MAGIC →
        binaryToDatum buf = .error .magicMismatch)
    ∧ (buf.length < 203 → binaryToDatum buf = .error .rangeError) := by
  constructor
  · intro h hbad
    have hm : (headerOf buf).magic = buf.take 4 := by
      simp only [headerOf, List.drop_zero]
    have hv : validateHeader (headerOf buf) buf.length = .error .magicMismatch := by
      unfold validateHeader
      rw [if_pos (by rw [hm]; exact hbad)]
    simp only [binaryToDatum, readHeader_ok buf h, ok_bind, hv, error_bind]
  · intro h
    simp only [binaryToDatum, readHeader_short buf h, error_bind]

/-- C4 witness: the amended theorem applied to the concrete 10-byte
buffer. -/
theorem c4_magic_rejection_witness :
    binaryToDatum (List.replicate 10 0) = .error .rangeError :=
  (c4_magic_rejection_amended (List.replicate 10 0)).2 (by decide)

/-- C6: the payload of the encoded buffer is the concatenation of the
per-frame encodings, a frame with 18 band values is encoded as those 18
values followed by two zero float32 slots (8 zero bytes), a frame with
25 band values is encoded from its first 20 values only, and every
frame occupies exactly 80 payload bytes; encoding is total, so no error
is raised in either case. -/
theorem c6_band_coercion (d : Datum) (fr : SpectralFrame) :
    (datumToBinary d).drop 203 = d.frames.flatMap encodeFrameBytes
    ∧ (fr.bands.length = 18 →
        encodeFrameBytes fr = fr.bands.flatMap (leBytes 4) ++ List.replicate 8 0)
    ∧ (25 ≤ fr.bands.length →
        encodeFrameBytes fr = (fr.bands.take 20).flatMap (leBytes 4))
    ∧ (encodeFrameBytes fr).length = 80 := by
  refine ⟨encode_payload d, ?_, ?_, encodeFrameBytes_length fr⟩
  · intro h18
    have hpb : padBands fr.bands = fr.bands ++ List.replicate 2 0 := by
      simp only [padBands]
      rw [List.take_of_length_le (by omega), h18]
    unfold encodeFrameBytes
    rw [hpb, List.flatMap_append]
    congr 1
  · intro h25
    have h20 : (fr.bands.take 20).length = 20 := by
      simp [List.length_take]
      omega
    have hpb : padBands fr.bands = fr.bands.take 20 := by
      simp only [padBands]
      rw [h20]
      simp
    unfold encodeFrameBytes
    rw [hpb]

/-- C6 witness: the claim theorem applied to the concrete 18-band and
25-band frames. -/
theorem c6_band_coercion_witness :
    encodeFrameBytes frame18
        = (List.replicate 18 7).flatMap (leBytes 4) ++ List.replicate 8 0
    ∧ encodeFrameBytes frame25
        = ((List.replicate 25 9).take 20).flatMap (leBytes 4) :=
  ⟨(c6_band_coercion zeroFrameDatum frame18).2.1 (by decide),
   (c6_band_coercion zeroFrameDatum frame25).2.2.1 (by decide)⟩

/-- C8: validateFile returns a boolean that is true exactly when the
full header read and validation succeed, getFileInfo always returns a
summary or none (both are total functions, mirroring the catch-all in
the source), and getFileInfo of a 10-byte buffer is none. -/
theorem c8_sniffing_total (buf : List Nat) :
    (validateFile buf = true ↔
        ∃ hd, readHeader buf = .ok hd ∧ validateHeader hd buf.length = .ok ())
    ∧ (getFileInfo buf = none ∨ ∃ info, getFileInfo buf = some info)
    ∧ (buf.length = 10 → getFileInfo buf = none) := by
  refine ⟨?_, ?_, ?_⟩
  · by_cases hlen : buf.length < 203
    · have hrh : readHeader buf = .error .rangeError := readHeader_short buf hlen
      unfold validateFile
      rw [if_pos (by simpa [DATUM_HEADER_SIZE] using hlen)]
      constructor
      · intro hfalse
        cases hfalse
      · rintro ⟨hd, hhd, _⟩
        rw [hrh] at hhd
        cases hhd
    · have h203 : 203 ≤ buf.length := by omega
      have hrh : readHeader buf = .ok (headerOf buf) := readHeader_ok buf h203
      unfold validateFile
      rw [if_neg (by simp [DATUM_HEADER_SIZE]; omega)]
      rw [hrh]
      cases hval : validateHeader (headerOf buf) buf.length with
      | ok u =>
          simp only [ok_bind, hval]
          constructor
          · intro _
            exact ⟨headerOf buf, rfl, by rw [hval]⟩
          · intro _
            exact trivial
      | error e =>
          simp only [ok_bind, hval]
          constructor
          · intro hcontra
            cases hcontra
          · rintro ⟨hd, hhd, hok⟩
            cases hhd
            rw [hval] at hok
            cases hok
  · cases hinfo : getFileInfo buf with
    | none => exact Or.inl rfl
    | some info => exact Or.inr ⟨info, rfl⟩
  · intro h10
    unfold getFileInfo
    rw [if_pos (by simp [DATUM_HEADER_SIZE, h10])]

/-- C8 witness: the claim theorem applied to a concrete 10-byte buffer. -/
theorem c8_sniffing_total_witness :
    getFileInfo (List.replicate 10 0) = none :=
  (c8_sniffing_total (List.replicate 10 0)).2.2 (by decide)

/-- C9: getFileInfo validates nothing beyond the minimum length: any
buffer of at least 203 bytes yields a summary built from the raw header
fields, regardless of their values, and any shorter buffer yields none. -/
theorem c9_peek_no_validation (buf : List Nat) :
    (203 ≤ buf.length →
        getFileInfo buf = some { name := (headerOf buf).name
                                 frames := (headerOf buf).frames
                                 size := buf.length })
    ∧ (buf.length < 203 → getFileInfo buf = none) := by
  constructor
  · intro h
    unfold getFileInfo
    rw [if_neg (by simp [DATUM_HEADER_SIZE]; omega), readHeader_ok buf h]
  · intro h
    unfold getFileInfo
    rw [if_pos (by simpa [DATUM_HEADER_SIZE] using h)]

set_option maxRecDepth 4000 in
/-- C9 witness: a 203-byte all-zero buffer fails the magic check yet
still yields a summary (name empty after NUL stripping, frames 0). -/
theorem c9_peek_no_validation_witness :
    getFileInfo (List.replicate 203 0)
      = some { name := [], frames := 0, size := 203 } := by
  have hsome := (c9_peek_no_validation (List.replicate 203 0)).1 (by simp)
  rw [hsome]
  decide


/-- C3: on any buffer large enough for its header to be read, the
decoder checks magic, then version, then headerSize, then frame count,
then frame range, then total size, and the first failing check
determines the error: each conjunct fixes the earlier checks to pass
and shows the distinct error of the first failing one, whatever the
later fields hold. -/
theorem c3_validation_order (buf : List Nat) (h : 203 ≤ buf.length) :
    ((headerOf buf).magic ≠ DATUM_MAGIC →
        binaryToDatum buf = .error .magicMismatch)
    ∧ ((headerOf buf).magic = DATUM_MAGIC → (headerOf buf).version ≠ 1 →
        binaryToDatum buf = .error (.unsupportedVersion (headerOf buf).version))
    ∧ ((headerOf buf).magic = DATUM_MAGIC → (headerOf buf).version = 1 →
        (headerOf buf).headerSize ≠ 203 →
        binaryToDatum buf = .error (.invalidHeaderSize (headerOf buf).headerSize))
    ∧ ((headerOf buf).magic = DATUM_MAGIC → (headerOf buf).version = 1 →
        (headerOf buf).headerSize = 203 → (headerOf buf).frames = 0 →
        binaryToDatum buf = .error .invalidFrameCount)
    ∧ ((headerOf buf).magic = DATUM_MAGIC → (headerOf buf).version = 1 →
        (headerOf buf).headerSize = 203 → (headerOf buf).frames ≠ 0 →
        (headerOf buf).endFrame < ((headerOf buf).startFrame : Int) →
        binaryToDatum buf = .error .invalidFrameRange)
    ∧ ((headerOf buf).magic = DATUM_MAGIC → (headerOf buf).version = 1 →
        (headerOf buf).headerSize = 203 → (headerOf buf).frames ≠ 0 →
        ¬ (headerOf buf).endFrame < ((headerOf buf).startFrame : Int) →
        buf.length ≠ 203 + (headerOf buf).frames * 80 →
        binaryToDatum buf = .error
          (.invalidFileSize (203 + (headerOf buf).frames * 80) buf.length)) := by
  have hrh : readHeader buf = .ok (headerOf buf) := readHeader_ok buf h
  refine ⟨?_, ?_, ?_, ?_, ?_, ?_⟩
  · intro h1
    have hv : validateHeader (headerOf buf) buf.length = .error .magicMismatch := by
      unfold validateHeader
      rw [if_pos h1]
    simp only [binaryToDatum, hrh, ok_bind, hv, error_bind]
  · intro h1 h2
    have hv : validateHeader (headerOf buf) buf.length
        = .error (.unsupportedVersion (headerOf buf).version) := by
      unfold validateHeader
      rw [if_neg (by simp [h1]), if_pos (by simp [DATUM_VERSION, h2])]
    simp only [binaryToDatum, hrh, ok_bind, hv, error_bind]
  · intro h1 h2 h3
    have hv : validateHeader (headerOf buf) buf.length
        = .error (.invalidHeaderSize (headerOf buf).headerSize) := by
      unfold validateHeader
      rw [if_neg (by simp [h1]), if_neg (by simp [DATUM_VERSION, h2]),
        if_pos (by simp [DATUM_HEADER_SIZE, h3])]
    simp only [binaryToDatum, hrh, ok_bind, hv, error_bind]
  · intro h1 h2 h3 h4
    have hv : validateHeader (headerOf buf) buf.length = .error .invalidFrameCount := by
      unfold validateHeader
      rw [if_neg (by simp [h1]), if_neg (by simp [DATUM_VERSION, h2]),
        if_neg (by simp [DATUM_HEADER_SIZE, h3]), if_pos (by omega)]
    simp only [binaryToDatum, hrh, ok_bind, hv, error_bind]
  · intro h1 h2 h3 h4 h5
    have hv : validateHeader (headerOf buf) buf.length = .error .invalidFrameRange := by
      unfold validateHeader
      rw [if_neg (by simp [h1]), if_neg (by simp [DATUM_VERSION, h2]),
        if_neg (by simp [DATUM_HEADER_SIZE, h3]), if_neg (by omega), if_pos h5]
    simp only [binaryToDatum, hrh, ok_bind, hv, error_bind]
  · intro h1 h2 h3 h4 h5 h6
    have harith : DATUM_HEADER_SIZE + (headerOf buf).frames * 20 * 4
        = 203 + (headerOf buf).frames * 80 := by
      simp only [DATUM_HEADER_SIZE]
      ring
    have hv : validateHeader (headerOf buf) buf.length
        = .error (.invalidFileSize (203 + (headerOf buf).frames * 80) buf.length) := by
      unfold validateHeader
      rw [if_neg (by simp [h1]), if_neg (by simp [DATUM_VERSION, h2]),
        if_neg (by simp [DATUM_HEADER_SIZE, h3]), if_neg (by omega), if_neg h5,
        if_pos (by rw [harith]; exact h6), harith]
    simp only [binaryToDatum, hrh, ok_bind, hv, error_bind]

set_option maxRecDepth 8000 in
/-- C3 witness: a 203-byte all-zero buffer fails the first (magic)
check, and the claim theorem yields the magic-mismatch error for it. -/
theorem c3_validation_order_witness :
    binaryToDatum (List.replicate 203 0) = .error .magicMismatch :=
  (c3_validation_order (List.replicate 203 0) (by simp)).1 (by decide)

/-- C5: on any buffer passing the magic, version, headerSize, frame
count and frame range checks, binaryToDatum yields the invalid-file-size
error exactly when the total length differs from 203 plus 80 bytes per
declared frame, and decodes successfully when the length matches. -/
theorem c5_size_check (buf : List Nat) (h : 203 ≤ buf.length)
    (hm : (headerOf buf).magic = DATUM_MAGIC)
    (hv : (headerOf buf).version = 1)
    (hh : (headerOf buf).headerSize = 203)
    (hf : (headerOf buf).frames ≠ 0)
    (hr : ¬ (headerOf buf).endFrame < ((headerOf buf).startFrame : Int)) :
    ((∃ e g, binaryToDatum buf = .error (.invalidFileSize e g)) ↔
        buf.length ≠ 203 + (headerOf buf).frames * 80)
    ∧ (buf.length = 203 + (headerOf buf).frames * 80 →
        ∃ dd, binaryToDatum buf = .ok dd) := by
  have hrh : readHeader buf = .ok (headerOf buf) := readHeader_ok buf h
  by_cases hsz : buf.length = 203 + (headerOf buf).frames * 80
  · have hval : validateHeader (headerOf buf) buf.length = .ok () := by
      unfold validateHeader
      rw [if_neg (by simp [hm]), if_neg (by simp [DATUM_VERSION, hv]),
        if_neg (by simp [DATUM_HEADER_SIZE, hh]), if_neg (by omega), if_neg hr,
        if_neg (by simp only [DATUM_HEADER_SIZE]; omega)]
    have hdrop : (buf.drop DATUM_HEADER_SIZE).length
        = (headerOf buf).frames * 80 := by
      simp only [DATUM_HEADER_SIZE, List.length_drop]
      omega
    obtain ⟨fl, hfl⟩ := decodeFramesFrom_ok (buf.drop DATUM_HEADER_SIZE)
      ((headerOf buf).frames) 0 (by rw [hdrop]; omega)
    have hok : binaryToDatum buf = .ok
        { name := (headerOf buf).name
          frameCount := (headerOf buf).frames
          bandCount := 20
          sampleRate := 44100
          frames := fl } := by
      simp only [binaryToDatum, hrh, ok_bind, hval, decodeSpectralData, hfl, pure_def]
    refine ⟨?_, fun _ => ⟨_, hok⟩⟩
    constructor
    · rintro ⟨e, g, he⟩
      rw [hok] at he
      cases he
    · intro hcontra
      exact absurd hsz hcontra
  · have hval : validateHeader (headerOf buf) buf.length
        = .error (.invalidFileSize (DATUM_HEADER_SIZE + (headerOf buf).frames * 20 * 4)
            buf.length) := by
      unfold validateHeader
      rw [if_neg (by simp [hm]), if_neg (by simp [DATUM_VERSION, hv]),
        if_neg (by simp [DATUM_HEADER_SIZE, hh]), if_neg (by omega), if_neg hr,
        if_pos (by simp only [DATUM_HEADER_SIZE]; omega)]
    have herr : binaryToDatum buf = .error
        (.invalidFileSize (DATUM_HEADER_SIZE + (headerOf buf).frames * 20 * 4)
          buf.length) := by
      simp only [binaryToDatum, hrh, ok_bind, hval, error_bind]
    refine ⟨?_, fun hcontra => absurd hcontra hsz⟩
    constructor
    · intro _
      exact hsz
    · intro _
      exact ⟨_, _, herr⟩

set_option maxRecDepth 8000 in
/-- C5 witness: the concrete 5-frame buffer of 603 bytes decodes, and
the 602-byte truncation of it raises the invalid-file-size error. -/
theorem c5_size_check_witness :
    (∃ e g, binaryToDatum fiveFrameBufShort = .error (.invalidFileSize e g))
    ∧ (∃ dd, binaryToDatum fiveFrameBuf = .ok dd) := by
  constructor
  · exact ((c5_size_check fiveFrameBufShort (by decide) (by decide) (by decide)
      (by decide) (by decide) (by decide)).1).mpr (by decide)
  · exact (c5_size_check fiveFrameBuf (by decide) (by decide) (by decide)
      (by decide) (by decide) (by decide)).2 (by decide)


theorem padBands_eq_self (l : List Nat) (h : l.length = 20) : padBands l = l := by
  simp only [padBands]
  rw [List.take_of_length_le (by omega), h]
  simp

theorem mem_padBands_lt (l : List Nat) (hB : ∀ b ∈ l, b < 2 ^ 32) :
    ∀ b ∈ padBands l, b < 2 ^ 32 := by
  intro b hb
  simp only [padBands, List.mem_append] at hb
  rcases hb with hb | hb
  · exact hB b (List.mem_of_mem_take hb)
  · rw [List.eq_of_mem_replicate hb]
    decide

/-- C1 counterexample: the dataset with frameCount 0 and a matching
empty frames array (bandCount 20) does not round trip: decoding its own
encoding fails with the invalid-frame-count error instead of
succeeding. -/
theorem c1_roundtrip_counterexample :
    zeroFrameDatum.bandCount = 20
    ∧ zeroFrameDatum.frames.length = zeroFrameDatum.frameCount
    ∧ binaryToDatum (datumToBinary zeroFrameDatum) = .error .invalidFrameCount := by
  refine ⟨rfl, rfl, ?_⟩
  have h203 : 203 ≤ (datumToBinary zeroFrameDatum).length := by
    rw [datumToBinary_length]
    omega
  have hmg : (headerOf (datumToBinary zeroFrameDatum)).magic = DATUM_MAGIC := by
    simp only [headerOf]
    exact encode_field_magic zeroFrameDatum
  have hver : (headerOf (datumToBinary zeroFrameDatum)).version = 1 := by
    simp only [headerOf]
    rw [encode_field_version]
    decide
  have hhs : (headerOf (datumToBinary zeroFrameDatum)).headerSize = 203 := by
    simp only [headerOf]
    rw [encode_field_headerSize]
    decide
  have hfr : (headerOf (datumToBinary zeroFrameDatum)).frames = 0 := by
    simp only [headerOf]
    rw [encode_field_frames]
    decide
  have hv : validateHeader (headerOf (datumToBinary zeroFrameDatum))
      (datumToBinary zeroFrameDatum).length = .error .invalidFrameCount := by
    unfold validateHeader
    rw [if_neg (by simp [hmg]), if_neg (by simp [DATUM_VERSION, hver]),
      if_neg (by simp [DATUM_HEADER_SIZE, hhs]), if_pos (by omega)]
  simp only [binaryToDatum, readHeader_ok _ h203, ok_bind, hv, error_bind]

/-- C1 (amended): for every dataset with bandCount 20, a frames array
matching a positive frameCount below 2 to the 32 (the JS array length
bound), a nonempty name of nonzero bytes, and frames of exactly 20
float32 band patterns, decoding the encoding succeeds and returns the
same frameCount, the name truncated to 19 characters, and exactly the
original band values. -/
theorem c1_roundtrip_amended (d : Datum)
    (hb20 : d.bandCount = 20)
    (hlen : d.frames.length = d.frameCount)
    (hpos : 0 < d.frameCount) (hlt : d.frameCount < 2 ^ 32)
    (hname : d.name ≠ []) (hnameB : ∀ b ∈ d.name, 0 < b ∧ b < 256)
    (hbands : ∀ fr ∈ d.frames, fr.bands.length = 20 ∧ ∀ b ∈ fr.bands, b < 2 ^ 32) :
    ∃ d2, binaryToDatum (datumToBinary d) = .ok d2
      ∧ d2.frameCount = d.frameCount
      ∧ d2.name = d.name.take 19
      ∧ d2.frames.map SpectralFrame.bands = d.frames.map SpectralFrame.bands := by
  refine ⟨_, decode_encode d hpos hlt hlen, rfl, ?_, ?_⟩
  · show stripTrailingNuls
        (nameFieldBytes (if d.name = [] then dropExportName else d.name)) = d.name.take 19
    rw [if_neg hname, nameFieldBytes_eq d.name (fun b hb => (hnameB b hb).2),
      stripTrailingNuls_append_zeros]
    refine stripTrailingNuls_eq_self _ (fun b hb => ?_)
    have hpb := (hnameB b (List.mem_of_mem_take hb)).1
    omega
  · show (expectedFrames 0 d.frames).map SpectralFrame.bands = _
    unfold expectedFrames
    rw [List.map_map]
    have hcomp : (SpectralFrame.bands ∘ fun p : Nat × SpectralFrame =>
        ({ bands := (padBands p.2.bands).map (fun b => b % 2 ^ 32),
           timestamp := p.1 } : SpectralFrame))
        = (fun fr => (padBands fr.bands).map (fun b => b % 2 ^ 32)) ∘ Prod.snd := rfl
    rw [hcomp, ← List.map_map, List.enumFrom_map_snd]
    refine List.map_congr_left fun fr hfr => ?_
    obtain ⟨hL, hB⟩ := hbands fr hfr
    rw [map_mod_eq_self _ (mem_padBands_lt fr.bands hB), padBands_eq_self fr.bands hL]

/-- C1 witness: the amended round trip applied to a concrete 2-frame
dataset. -/
theorem c1_roundtrip_witness :
    ∃ d2, binaryToDatum (datumToBinary sampleDatum) = .ok d2
      ∧ d2.frameCount = sampleDatum.frameCount
      ∧ d2.name = sampleDatum.name.take 19
      ∧ d2.frames.map SpectralFrame.bands = sampleDatum.frames.map SpectralFrame.bands :=
  c1_roundtrip_amended sampleDatum rfl (by decide) (by decide) (by decide) (by decide)
    (by decide) (by decide)

/-- C7: encoding a dataset whose name is a 30-character string of
nonzero single-byte characters writes exactly the first 19 characters
followed by one NUL into the 20-byte name field, and decoding recovers
exactly those 19 characters with no trailing NUL bytes. -/
theorem c7_name_truncation (d : Datum) (hn : d.name.length = 30)
    (hnB : ∀ b ∈ d.name, 0 < b ∧ b < 256)
    (hpos : 0 < d.frameCount) (hlt : d.frameCount < 2 ^ 32)
    (hlen : d.frames.length = d.frameCount) :
    ((datumToBinary d).drop 12).take 20 = d.name.take 19 ++ List.replicate 1 0
    ∧ ∃ d2, binaryToDatum (datumToBinary d) = .ok d2
        ∧ d2.name = d.name.take 19 ∧ d2.name.length = 19 := by
  have hne : d.name ≠ [] := by
    intro hcontra
    rw [hcontra] at hn
    simp at hn
  have htake : (d.name.take 19).length = 19 := by
    simp [List.length_take, hn]
  have hstrip : stripTrailingNuls
      (nameFieldBytes (if d.name = [] then dropExportName else d.name)) = d.name.take 19 := by
    rw [if_neg hne, nameFieldBytes_eq d.name (fun b hb => (hnB b hb).2),
      stripTrailingNuls_append_zeros]
    refine stripTrailingNuls_eq_self _ (fun b hb => ?_)
    have hpb := (hnB b (List.mem_of_mem_take hb)).1
    omega
  constructor
  · rw [encode_field_name, if_neg hne,
      nameFieldBytes_eq d.name (fun b hb => (hnB b hb).2), htake]
  · refine ⟨_, decode_encode d hpos hlt hlen, hstrip, ?_⟩
    show (stripTrailingNuls
        (nameFieldBytes (if d.name = [] then dropExportName else d.name))).length = 19
    rw [hstrip, htake]

/-- C7 witness: the claim applied to a concrete dataset named with 30
distinct letters. -/
theorem c7_name_truncation_witness :
    ((datumToBinary longNameDatum).drop 12).take 20
        = longNameDatum.name.take 19 ++ List.replicate 1 0
    ∧ ∃ d2, binaryToDatum (datumToBinary longNameDatum) = .ok d2
        ∧ d2.name = longNameDatum.name.take 19 ∧ d2.name.length = 19 :=
  c7_name_truncation longNameDatum (by decide) (by decide) (by decide) (by decide) (by decide)

/-- C10: encoding a dataset with an empty name writes the substitute
name DROP Export (padded with NULs) into the header, and decoding the
result yields a dataset named DROP Export, so the empty name does not
survive a round trip. -/
theorem c10_empty_name_substitute (d : Datum) (hname : d.name = [])
    (hpos : 0 < d.frameCount) (hlt : d.frameCount < 2 ^ 32)
    (hlen : d.frames.length = d.frameCount) :
    ((datumToBinary d).drop 12).take 20 = dropExportName ++ List.replicate 9 0
    ∧ ∃ d2, binaryToDatum (datumToBinary d) = .ok d2 ∧ d2.name = dropExportName := by
  constructor
  · rw [encode_field_name, if_pos hname]
    decide
  · refine ⟨_, decode_encode d hpos hlt hlen, ?_⟩
    show stripTrailingNuls
        (nameFieldBytes (if d.name = [] then dropExportName else d.name)) = dropExportName
    rw [if_pos hname]
    decide

/-- C10 witness: the claim applied to a concrete one-frame dataset with
an empty name. -/
theorem c10_empty_name_substitute_witness :
    ((datumToBinary emptyNameDatum).drop 12).take 20
        = dropExportName ++ List.replicate 9 0
    ∧ ∃ d2, binaryToDatum (datumToBinary emptyNameDatum) = .ok d2
        ∧ d2.name = dropExportName :=
  c10_empty_name_substitute emptyNameDatum rfl (by decide) (by decide) (by decide)

end Drop
